import Mathlib

/-!
Verification of the bakthat backup tool (src/bakthat/__init__.py).

Strings are modelled as lists of characters.  Components that live in the
sibling modules bakthat.models, bakthat.backends and bakthat.sync are not
part of the sources; where a claim depends on them they are modelled from
the specification and marked `Modelled from the spec:` in their doc comment.
-/

namespace Bakthat

/-! ## Stored-key grammar (match_filename / upgrade_from_shelve)

The source matches a stored key with

  canonical: (?P<backup_name>.+)\.(?P<date_component>\d{14})\.tgz(?P<is_enc>\.enc)?
  legacy:    (?P<backup_name>.+)(?P<date_component>\d{14})\.tgz(?P<is_enc>\.enc)?

via Python re.match: the pattern is anchored at the start only, the name
group is greedy (longest first) and may not contain a newline, and anything
after the optional .enc group is ignored.
-/

/-- Tail of the stored-key grammar after the backup name (and separating dot
for the canonical grammar): exactly 14 digits, the literal suffix .tgz, then
an optional literal .enc; re.match ignores trailing characters after it.
Returns `some isEnc` on a match. -/
def tailCore (r : List Char) : Option Bool :=
  if (r.take 14).all Char.isDigit ∧ (r.drop 14).take 4 = ['.', 't', 'g', 'z'] then
    some (decide ((r.drop 18).take 4 = ['.', 'e', 'n', 'c']))
  else none

/-- The part of the grammar following the name group: the canonical grammar
(`sep = true`) demands a literal dot before the 14-digit date component, the
legacy grammar (`sep = false`) does not. -/
def tailOK (sep : Bool) (rest : List Char) : Option Bool :=
  if sep then
    match rest with
    | c :: r => if c = '.' then tailCore r else none
    | [] => none
  else tailCore rest

/-- Try the name group of length `m`: at least one character, no newline
(Python `.` does not match a newline), followed by a tail match. -/
def checkAt (sep : Bool) (key : List Char) (m : Nat) : Option Bool :=
  if m = 0 then none
  else if (key.take m).all (fun c => !(c == '\n')) then tailOK sep (key.drop m)
  else none

/-- Backtracking of the greedy name group: try the longest name first,
exactly as Python's greedy `.+` does. -/
def greedyFind (sep : Bool) (key : List Char) : Nat → Option (Nat × Bool)
  | 0 => none
  | n + 1 =>
    match checkAt sep key (n + 1) with
    | some e => some (n + 1, e)
    | none => greedyFind sep key n

/-- One grammar of the stored-key parser: `some (name, dateComponent, isEnc)`
when the grammar matches, `none` otherwise.  `sep = true` is the canonical
grammar (dot before the date component), `sep = false` the legacy one. -/
def regexDecode (sep : Bool) (key : List Char) : Option (List Char × List Char × Bool) :=
  match greedyFind sep key key.length with
  | some (m, e) => some (key.take m, (key.drop (if sep then m + 1 else m)).take 14, e)
  | none => none

/-- The stored-key encoder used by backup():
`"{0}.{1}.tgz".format(name, dateComponent)` plus `".enc"` when encrypted. -/
def encodeKey (name ts : List Char) (enc : Bool) : List Char :=
  name ++ '.' :: (ts ++ '.' :: 't' :: 'g' :: 'z' :: (if enc then ['.', 'e', 'n', 'c'] else []))

/-! ## Date component conversions

The date component has the strftime format `%Y%m%d%H%M%S`; the spec fixes the
timezone to UTC.  Conversions between epoch seconds and civil dates use the
standard proleptic-Gregorian day counting. -/

/-- Numeric value of a digit string (what int() / strptime extract). -/
def natOfDigits (l : List Char) : Nat :=
  l.foldl (fun a c => a * 10 + (c.toNat - 48)) 0

/-- Days from 1970-01-01 to the given civil date (UTC). -/
def daysFromCivil (y m d : Nat) : Nat :=
  let y' := if m ≤ 2 then y - 1 else y
  let era := y' / 400
  let yoe := y' % 400
  let mp := (m + 9) % 12
  let doy := (153 * mp + 2) / 5 + d - 1
  let doe := yoe * 365 + yoe / 4 - yoe / 100 + doy
  era * 146097 + doe - 719468

/-- Epoch seconds of a 14-digit date component, read as a UTC timestamp
(strptime with format %Y%m%d%H%M%S followed by the epoch conversion). -/
def epochOfDate14 (ds : List Char) : Nat :=
  let y := natOfDigits (ds.take 4)
  let mo := natOfDigits ((ds.drop 4).take 2)
  let d := natOfDigits ((ds.drop 6).take 2)
  let h := natOfDigits ((ds.drop 8).take 2)
  let mi := natOfDigits ((ds.drop 10).take 2)
  let s := natOfDigits ((ds.drop 12).take 2)
  daysFromCivil y mo d * 86400 + h * 3600 + mi * 60 + s

/-- Civil date (year, month, day) of a day count since 1970-01-01 (UTC). -/
def civilFromDays (z0 : Nat) : Nat × Nat × Nat :=
  let z := z0 + 719468
  let era := z / 146097
  let doe := z % 146097
  let yoe := (doe - doe / 1460 + doe / 36524 - doe / 146096) / 365
  let y := yoe + era * 400
  let doy := doe - (365 * yoe + yoe / 4 - yoe / 100)
  let mp := (5 * doy + 2) / 153
  let d := doy - (153 * mp + 2) / 5 + 1
  let m := if mp < 10 then mp + 3 else mp - 9
  (if m ≤ 2 then y + 1 else y, m, d)

/-- Zero-padded decimal rendering of a number, as strftime produces. -/
def padDigits (width n : Nat) : List Char :=
  let s := Nat.toDigits 10 n
  List.replicate (width - s.length) '0' ++ s

/-- The 14-character date component `now.strftime("%Y%m%d%H%M%S")` of a UTC
instant given in epoch seconds. -/
def dateComponentOfEpoch (n : Nat) : List Char :=
  let days := n / 86400
  let rem := n % 86400
  let c := civilFromDays days
  padDigits 4 c.1 ++ padDigits 2 c.2.1 ++ padDigits 2 c.2.2 ++
    padDigits 2 (rem / 3600) ++ padDigits 2 ((rem % 3600) / 60) ++ padDigits 2 (rem % 60)

/-- Result of decoding one stored key in upgrade_from_shelve: the backup
record fields derived from the key alone. -/
structure DecodedKey where
  filename : List Char
  backup_date : Nat
  is_enc : Bool
deriving DecidableEq, Repr

/-- The key decoder of upgrade_from_shelve: try the canonical grammar, fall
back to the legacy grammar, and when neither matches keep the whole key as
the filename with backup_date 0 and is_enc False. -/
def decodeKey (key : List Char) : DecodedKey :=
  match regexDecode true key with
  | some (n, ts, e) => ⟨n, epochOfDate14 ts, e⟩
  | none =>
    match regexDecode false key with
    | some (n, ts, e) => ⟨n, epochOfDate14 ts, e⟩
    | none => ⟨key, 0, false⟩

/-! ## Data model

BackupRecord mirrors the fields of the Backups model that the claims are
about.  is_enc models metadata["is_enc"]; backend is an abstract backend
identifier (the destination string in the source); the profile dimension,
size and tags payloads play no role in any claim and only tags is kept as
an opaque value. -/

structure BackupRecord where
  id : Nat
  filename : List Char
  stored_filename : List Char
  backup_date : Nat
  last_updated : Nat
  backend : Nat
  is_deleted : Bool
  is_enc : Bool
  tags : List Char
deriving DecidableEq, Repr

/-- Observable side effects of one operation, in the order they happen:
calls into the remote storage backend, catalog mutations, and the
best-effort catalog synchronization. -/
inductive Event where
  | backendLs
  | backendUpload (key : List Char)
  | backendDownload (key : List Char)
  | backendDelete (key : List Char)
  | catalogCreate (id : Nat)
  | catalogSetDeleted (id : Nat)
  | syncAuto (ok : Bool)
deriving DecidableEq, Repr

/-- The record after set_deleted: is_deleted set, last_updated refreshed. -/
def markDeleted (r : BackupRecord) (now : Nat) : BackupRecord :=
  { r with is_deleted := true, last_updated := now }

/-- Modelled from the spec: Backups.set_deleted (bakthat.models is not in
the sources) sets is_deleted = true and updates last_updated; records are
soft-deleted, never physically removed. -/
def setDeleted (cat : List BackupRecord) (i now : Nat) : List BackupRecord :=
  cat.map (fun r => if r.id = i then markDeleted r now else r)

/-- Records ordered by backup_date descending (the catalog search order). -/
def dateGeRel (r s : BackupRecord) : Prop :=
  s.backup_date ≤ r.backup_date

instance : DecidableRel dateGeRel := fun r s =>
  (inferInstance : Decidable (s.backup_date ≤ r.backup_date))

/-- Modelled from the spec: Backups.match_filename (bakthat.models is not in
the sources) returns the most recent active record whose filename starts
with the requested name, on the requested backend. -/
def catalogMatchFilename (cat : List BackupRecord) (dest : Nat) (name : List Char) :
    Option BackupRecord :=
  (List.insertionSort dateGeRel
    (cat.filter (fun r => !r.is_deleted && r.backend == dest && name.isPrefixOf r.filename))).head?

/-- Modelled from the spec: Backups.search with an exact backup_date filter
(bakthat.models is not in the sources), restricted to active records whose
filename starts with the requested name, ordered by backup_date descending;
.get() takes the first result or nothing. -/
def searchExact (cat : List BackupRecord) (dest : Nat) (name : List Char) (date : Nat) :
    Option BackupRecord :=
  (List.insertionSort dateGeRel
    (cat.filter (fun r =>
      !r.is_deleted && r.backend == dest && name.isPrefixOf r.filename &&
        r.backup_date == date))).head?

/-- Modelled from the spec: Backups.search with an older_than filter
(bakthat.models is not in the sources): active records whose filename starts
with the requested name with backup_date before the cutoff, ordered by
backup_date descending. -/
def searchOlderThan (cat : List BackupRecord) (dest : Nat) (name : List Char) (cutoff : Nat) :
    List BackupRecord :=
  List.insertionSort dateGeRel
    (cat.filter (fun r =>
      !r.is_deleted && r.backend == dest && name.isPrefixOf r.filename &&
        decide (r.backup_date < cutoff)))

/-! ## backup() -/

/-- Inputs of one backup() call.  promptEnabled models
`prompt.lower() != "no"`; promptPassword and promptConfirm are the answers
the two getpass prompts would receive; now is datetime.utcnow() in epoch
seconds. -/
structure BackupArgs where
  path : List Char
  customFilename : Option (List Char)
  kwPassword : Option (List Char)
  promptEnabled : Bool
  promptPassword : List Char
  promptConfirm : List Char
  tags : List Char
  destination : Nat
  now : Nat
deriving DecidableEq, Repr

/-- The password-resolution flow at the top of backup(): outer none means
the early return on a failed confirmation; otherwise the effective password
(inner none when no password is in play, an empty password disables
encryption). -/
def resolvePassword (a : BackupArgs) : Option (Option (List Char)) :=
  match a.kwPassword with
  | some p => some (some p)
  | none =>
    if a.promptEnabled then
      if a.promptPassword = [] then some (some [])
      else if a.promptPassword = a.promptConfirm then some (some a.promptPassword)
      else none
    else some none

/-- Leading and trailing slashes removed: Python `filename.strip('/')`. -/
def stripSlashes (l : List Char) : List Char :=
  ((l.dropWhile (fun c => c == '/')).reverse.dropWhile (fun c => c == '/')).reverse

/-- The archive name `filename.strip('/').split('/')[-1]`. -/
def arcnameOf (path : List Char) : List Char :=
  ((stripSlashes path).splitOn '/').getLastD []

/-- Python `re.sub(r'(\.t(ar\.)?gz)', '', arcname)`: every occurrence of
.tar.gz or .tgz removed, scanning left to right. -/
def stripTgzExt : List Char → List Char
  | '.' :: 't' :: 'a' :: 'r' :: '.' :: 'g' :: 'z' :: rest => stripTgzExt rest
  | '.' :: 't' :: 'g' :: 'z' :: rest => stripTgzExt rest
  | c :: rest => c :: stripTgzExt rest
  | [] => []

/-- mimetypes.guess_type(arcname) == ('application/x-tar', 'gzip'): exactly
the names ending in .tgz, .taz, .tz or .tar.gz. -/
def isTarGzName (a : List Char) : Bool :=
  ".tgz".toList.isSuffixOf a || ".taz".toList.isSuffixOf a ||
    ".tz".toList.isSuffixOf a || ".tar.gz".toList.isSuffixOf a

/-- The result, catalog and side-effect trace of one backup() call: resolve
the password (early return on a failed confirmation), derive the stored key
from the archive name, the date component and the encryption flag, upload,
insert the record (create assigns the next id) and sync. -/
def backupOp (a : BackupArgs) (cat : List BackupRecord) (syncOk : Bool) :
    Option BackupRecord × List BackupRecord × List Event :=
  match resolvePassword a with
  | none => (none, cat, [])
  | some eff =>
    let enc := match eff with
      | some p => !p.isEmpty
      | none => false
    let arc := arcnameOf a.path
    let base := if isTarGzName arc then stripTgzExt arc else arc
    let stored := encodeKey base (dateComponentOfEpoch a.now) enc
    let r : BackupRecord := {
      id := cat.length
      filename := a.customFilename.getD arc
      stored_filename := stored
      backup_date := a.now
      last_updated := a.now
      backend := a.destination
      is_deleted := false
      is_enc := enc
      tags := a.tags }
    (some r, cat ++ [r], [Event.backendUpload stored, Event.catalogCreate r.id,
      Event.syncAuto syncOk])

/-! ## restore() and delete() -/

/-- What a restore() call hands back to the caller: Python None, the raw
backend payload of a job_check call (passed through even when falsy), or the
boolean True after a successful extraction.  The payload of a backend
download is abstracted to an optional number, none standing for a falsy
result. -/
inductive RestoreReturn where
  | noResult
  | jobPayload (p : Option Nat)
  | success
deriving DecidableEq, Repr

/-- One restore() call: blank filename or no catalog match return early with
no action; otherwise the stored key is downloaded, a job_check call returns
the raw payload as is, and a truthy download is extracted and answered with
True.  `dl` is the value the backend download would produce. -/
def restoreOp (cat : List BackupRecord) (dest : Nat) (filename : List Char)
    (jobCheck : Bool) (dl : Option Nat) :
    RestoreReturn × List BackupRecord × List Event :=
  if filename = [] then (RestoreReturn.noResult, cat, [])
  else
    match catalogMatchFilename cat dest filename with
    | none => (RestoreReturn.noResult, cat, [])
    | some b =>
      let evs := [Event.backendDownload b.stored_filename]
      if jobCheck then (RestoreReturn.jobPayload dl, cat, evs)
      else
        match dl with
        | some _ => (RestoreReturn.success, cat, evs)
        | none => (RestoreReturn.noResult, cat, evs)

/-- One delete() call: blank filename or no catalog match return early with
no action; otherwise the backend object is deleted, the record soft-deleted,
a sync triggered and True returned. -/
def deleteOp (cat : List BackupRecord) (dest : Nat) (filename : List Char)
    (now : Nat) (syncOk : Bool) :
    Option Bool × List BackupRecord × List Event :=
  if filename = [] then (none, cat, [])
  else
    match catalogMatchFilename cat dest filename with
    | none => (none, cat, [])
    | some b =>
      (some true, setDeleted cat b.id now,
        [Event.backendDelete b.stored_filename, Event.catalogSetDeleted b.id,
          Event.syncAuto syncOk])

/-! ## delete_older_than() and rotate_backups() -/

/-- The shared deletion loop body: for each victim record, delete its stored
key from the backend, soft-delete it, and collect the key. -/
def deleteRecords (cat : List BackupRecord) (now : Nat) :
    List BackupRecord → List BackupRecord × List Event × List (List Char)
  | [] => (cat, [], [])
  | b :: bs =>
    let rest := deleteRecords (setDeleted cat b.id now) now bs
    (rest.1,
      Event.backendDelete b.stored_filename :: Event.catalogSetDeleted b.id :: rest.2.1,
      b.stored_filename :: rest.2.2)

/-- One delete_older_than() call: every active matching record older than
the cutoff is deleted from the backend and soft-deleted, then a sync is
triggered; the deleted keys are returned in order. -/
def deleteOlderThanOp (cat : List BackupRecord) (dest : Nat) (name : List Char)
    (cutoff now : Nat) (syncOk : Bool) :
    List (List Char) × List BackupRecord × List Event :=
  let res := deleteRecords cat now (searchOlderThan cat dest name cutoff)
  (res.2.2, res.1, res.2.1 ++ [Event.syncAuto syncOk])

/-- Modelled from the spec: the retention parameters of RotationConfig
(bakthat.backends is not in the sources). -/
structure RotationConf where
  days : Nat
  weeks : Nat
  months : Nat
  first_week_day : Nat
deriving DecidableEq, Repr

/-- The rotation deletion loop: each date of the to-delete set is resolved
through an exact-date catalog search; dates with no matching record are
skipped; a resolved record has its key deleted from the backend and is
soft-deleted, and its key is collected. -/
def rotateLoop (cat : List BackupRecord) (dest : Nat) (name : List Char) (now : Nat) :
    List Nat → List BackupRecord × List Event × List (List Char)
  | [] => (cat, [], [])
  | d :: ds =>
    match searchExact cat dest name d with
    | none => rotateLoop cat dest name now ds
    | some b =>
      let rest := rotateLoop (setDeleted cat b.id now) dest name now ds
      (rest.1,
        Event.backendDelete b.stored_filename :: Event.catalogSetDeleted b.id :: rest.2.1,
        b.stored_filename :: rest.2.2)

/-- One rotate_backups() call.  A missing rotation configuration raises
before anything is done (modelled as Except.error).  With a valid
configuration the set of dates to delete is computed by the external
grandfatherson library from the backup history; it is taken here as the
input `toDelete`.  The deleted keys are returned in order, after a sync. -/
def rotateBackups (rc : Option RotationConf) (cat : List BackupRecord) (dest : Nat)
    (name : List Char) (toDelete : List Nat) (now : Nat) (syncOk : Bool) :
    Except String (List (List Char)) × List BackupRecord × List Event :=
  match rc with
  | none =>
    (Except.error
      "You must run bakthat configure_backups_rotation or provide rotation configuration.",
      cat, [])
  | some _ =>
    let res := rotateLoop cat dest name now toDelete
    (Except.ok res.2.2, res.1, res.2.1 ++ [Event.syncAuto syncOk])

/-! ## _match_filename() and match_filename() -/

/-- Stored keys in descending order (Python keys.sort(reverse=True)). -/
def keyGeRel (a b : List Char) : Prop :=
  String.mk b ≤ String.mk a

instance : DecidableRel keyGeRel := fun a b =>
  (inferInstance : Decidable (String.mk b ≤ String.mk a))

instance : IsTotal (List Char) keyGeRel := ⟨fun a b => le_total (String.mk b) (String.mk a)⟩

instance : IsTrans (List Char) keyGeRel := ⟨fun _ _ _ hab hbc => le_trans hbc hab⟩

/-- Descending sort of the listed keys. -/
def sortKeysDesc (l : List (List Char)) : List (List Char) :=
  List.insertionSort keyGeRel l

/-- One _match_filename() call: a blank filename raises before the backend
is contacted; otherwise the backend listing is filtered to the keys starting
with the filename and sorted in descending order.  `ls` is the listing the
backend would return. -/
def matchFilenameKeysOp (filename : List Char) (ls : List (List Char)) :
    Except String (List (List Char)) × List Event :=
  if filename = [] then (Except.error "Filename cannot be blank", [])
  else
    (Except.ok (sortKeysDesc (ls.filter (fun k => filename.isPrefixOf k))),
      [Event.backendLs])

/-- One entry of the public match_filename() result: the dict with the
backup name, the key, the raw date component and the encryption flag. -/
structure MatchEntry where
  filename : List Char
  key : List Char
  dateComponent : List Char
  is_enc : Bool
deriving DecidableEq, Repr

/-- The per-key decoding of match_filename(): canonical grammar first, then
the legacy grammar; keys matching neither are dropped. -/
def decodeEntry (key : List Char) : Option MatchEntry :=
  match regexDecode true key with
  | some (n, ts, e) => some ⟨n, key, ts, e⟩
  | none =>
    match regexDecode false key with
    | some (n, ts, e) => some ⟨n, key, ts, e⟩
    | none => none

/-- The public match_filename(): _match_filename() (hence the same raise on
a blank filename), then each key decoded through the two grammars. -/
def matchFilenameOp (filename : List Char) (ls : List (List Char)) :
    Except String (List MatchEntry) × List Event :=
  match matchFilenameKeysOp filename ls with
  | (Except.error e, tr) => (Except.error e, tr)
  | (Except.ok ks, tr) => (Except.ok (ks.filterMap decodeEntry), tr)

/-! ## Helper lemmas for the stored-key grammar -/

lemma isDigit_ne_dot (c : Char) (h : c.isDigit = true) : ¬(c = '.') := by
  rintro rfl
  exact absurd h (by decide)

lemma tailOK_cons_ne_dot (c : Char) (l : List Char) (h : ¬(c = '.')) :
    tailOK true (c :: l) = none := by
  simp [tailOK, h]

lemma tailOK_drop_nil : ∀ d, tailOK true (List.drop d ([] : List Char)) = none := by
  intro d
  simp [List.drop_nil, tailOK, tailCore]

lemma drop_tail_step (c : Char) (l : List Char) (hc : tailOK true (c :: l) = none)
    (hl : ∀ d, tailOK true (l.drop d) = none) :
    ∀ d, tailOK true ((c :: l).drop d) = none := by
  intro d
  cases d with
  | zero => simpa using hc
  | succ d => simpa [List.drop_succ_cons] using hl d

/-- No proper suffix of the grammar tail (14 digits, `.tgz`, optional `.enc`)
matches the canonical grammar tail again: the dots inside `.tgz` and `.enc`
are not followed by 14 digits, and a digit is not a dot.  This is what makes
the greedy name group recover exactly the name of an encoded key. -/
lemma tailOK_suffix_none (c0 c1 c2 c3 c4 c5 c6 c7 c8 c9 c10 c11 c12 c13 : Char)
    (hall : ([c0, c1, c2, c3, c4, c5, c6, c7, c8, c9, c10, c11, c12, c13].all
      Char.isDigit) = true) (e : Bool) :
    ∀ d, tailOK true ((c0 :: c1 :: c2 :: c3 :: c4 :: c5 :: c6 :: c7 :: c8 :: c9 :: c10 ::
      c11 :: c12 :: c13 :: '.' :: 't' :: 'g' :: 'z' ::
        (if e then ['.', 'e', 'n', 'c'] else [])).drop d) = none := by
  simp only [List.all_cons, List.all_nil, Bool.and_true, Bool.and_eq_true] at hall
  obtain ⟨h0, h1, h2, h3, h4, h5, h6, h7, h8, h9, h10, h11, h12, h13⟩ := hall
  cases e with
  | false =>
    have t0 := tailOK_drop_nil
    have t1 := drop_tail_step 'z' [] (by decide) t0
    have t2 := drop_tail_step 'g' ['z'] (by decide) t1
    have t3 := drop_tail_step 't' ['g', 'z'] (by decide) t2
    have t4 := drop_tail_step '.' ['t', 'g', 'z'] (by decide) t3
    have t5 := drop_tail_step c13 ('.' :: 't' :: 'g' :: 'z' :: [])
      (tailOK_cons_ne_dot _ _ (isDigit_ne_dot _ h13)) t4
    have t6 := drop_tail_step c12 (c13 :: '.' :: 't' :: 'g' :: 'z' :: [])
      (tailOK_cons_ne_dot _ _ (isDigit_ne_dot _ h12)) t5
    have t7 := drop_tail_step c11 (c12 :: c13 :: '.' :: 't' :: 'g' :: 'z' :: [])
      (tailOK_cons_ne_dot _ _ (isDigit_ne_dot _ h11)) t6
    have t8 := drop_tail_step c10 (c11 :: c12 :: c13 :: '.' :: 't' :: 'g' :: 'z' :: [])
      (tailOK_cons_ne_dot _ _ (isDigit_ne_dot _ h10)) t7
    have t9 := drop_tail_step c9 (c10 :: c11 :: c12 :: c13 :: '.' :: 't' :: 'g' :: 'z' :: [])
      (tailOK_cons_ne_dot _ _ (isDigit_ne_dot _ h9)) t8
    have t10 := drop_tail_step c8
      (c9 :: c10 :: c11 :: c12 :: c13 :: '.' :: 't' :: 'g' :: 'z' :: [])
      (tailOK_cons_ne_dot _ _ (isDigit_ne_dot _ h8)) t9
    have t11 := drop_tail_step c7
      (c8 :: c9 :: c10 :: c11 :: c12 :: c13 :: '.' :: 't' :: 'g' :: 'z' :: [])
      (tailOK_cons_ne_dot _ _ (isDigit_ne_dot _ h7)) t10
    have t12 := drop_tail_step c6
      (c7 :: c8 :: c9 :: c10 :: c11 :: c12 :: c13 :: '.' :: 't' :: 'g' :: 'z' :: [])
      (tailOK_cons_ne_dot _ _ (isDigit_ne_dot _ h6)) t11
    have t13 := drop_tail_step c5
      (c6 :: c7 :: c8 :: c9 :: c10 :: c11 :: c12 :: c13 :: '.' :: 't' :: 'g' :: 'z' :: [])
      (tailOK_cons_ne_dot _ _ (isDigit_ne_dot _ h5)) t12
    have t14 := drop_tail_step c4
      (c5 :: c6 :: c7 :: c8 :: c9 :: c10 :: c11 :: c12 :: c13 :: '.' :: 't' :: 'g' :: 'z' :: [])
      (tailOK_cons_ne_dot _ _ (isDigit_ne_dot _ h4)) t13
    have t15 := drop_tail_step c3
      (c4 :: c5 :: c6 :: c7 :: c8 :: c9 :: c10 :: c11 :: c12 :: c13 ::
        '.' :: 't' :: 'g' :: 'z' :: [])
      (tailOK_cons_ne_dot _ _ (isDigit_ne_dot _ h3)) t14
    have t16 := drop_tail_step c2
      (c3 :: c4 :: c5 :: c6 :: c7 :: c8 :: c9 :: c10 :: c11 :: c12 :: c13 ::
        '.' :: 't' :: 'g' :: 'z' :: [])
      (tailOK_cons_ne_dot _ _ (isDigit_ne_dot _ h2)) t15
    have t17 := drop_tail_step c1
      (c2 :: c3 :: c4 :: c5 :: c6 :: c7 :: c8 :: c9 :: c10 :: c11 :: c12 :: c13 ::
        '.' :: 't' :: 'g' :: 'z' :: [])
      (tailOK_cons_ne_dot _ _ (isDigit_ne_dot _ h1)) t16
    have t18 := drop_tail_step c0
      (c1 :: c2 :: c3 :: c4 :: c5 :: c6 :: c7 :: c8 :: c9 :: c10 :: c11 :: c12 :: c13 ::
        '.' :: 't' :: 'g' :: 'z' :: [])
      (tailOK_cons_ne_dot _ _ (isDigit_ne_dot _ h0)) t17
    simpa using t18
  | true =>
    have t0 := tailOK_drop_nil
    have u1 := drop_tail_step 'c' [] (by decide) t0
    have u2 := drop_tail_step 'n' ['c'] (by decide) u1
    have u3 := drop_tail_step 'e' ['n', 'c'] (by decide) u2
    have u4 := drop_tail_step '.' ['e', 'n', 'c'] (by decide) u3
    have u5 := drop_tail_step 'z' ('.' :: 'e' :: 'n' :: 'c' :: []) (by decide) u4
    have u6 := drop_tail_step 'g' ('z' :: '.' :: 'e' :: 'n' :: 'c' :: []) (by decide) u5
    have u7 := drop_tail_step 't' ('g' :: 'z' :: '.' :: 'e' :: 'n' :: 'c' :: []) (by decide) u6
    have u8 := drop_tail_step '.' ('t' :: 'g' :: 'z' :: '.' :: 'e' :: 'n' :: 'c' :: [])
      (by decide) u7
    have u9 := drop_tail_step c13 ('.' :: 't' :: 'g' :: 'z' :: '.' :: 'e' :: 'n' :: 'c' :: [])
      (tailOK_cons_ne_dot _ _ (isDigit_ne_dot _ h13)) u8
    have u10 := drop_tail_step c12
      (c13 :: '.' :: 't' :: 'g' :: 'z' :: '.' :: 'e' :: 'n' :: 'c' :: [])
      (tailOK_cons_ne_dot _ _ (isDigit_ne_dot _ h12)) u9
    have u11 := drop_tail_step c11
      (c12 :: c13 :: '.' :: 't' :: 'g' :: 'z' :: '.' :: 'e' :: 'n' :: 'c' :: [])
      (tailOK_cons_ne_dot _ _ (isDigit_ne_dot _ h11)) u10
    have u12 := drop_tail_step c10
      (c11 :: c12 :: c13 :: '.' :: 't' :: 'g' :: 'z' :: '.' :: 'e' :: 'n' :: 'c' :: [])
      (tailOK_cons_ne_dot _ _ (isDigit_ne_dot _ h10)) u11
    have u13 := drop_tail_step c9
      (c10 :: c11 :: c12 :: c13 :: '.' :: 't' :: 'g' :: 'z' :: '.' :: 'e' :: 'n' :: 'c' :: [])
      (tailOK_cons_ne_dot _ _ (isDigit_ne_dot _ h9)) u12
    have u14 := drop_tail_step c8
      (c9 :: c10 :: c11 :: c12 :: c13 :: '.' :: 't' :: 'g' :: 'z' ::
        '.' :: 'e' :: 'n' :: 'c' :: [])
      (tailOK_cons_ne_dot _ _ (isDigit_ne_dot _ h8)) u13
    have u15 := drop_tail_step c7
      (c8 :: c9 :: c10 :: c11 :: c12 :: c13 :: '.' :: 't' :: 'g' :: 'z' ::
        '.' :: 'e' :: 'n' :: 'c' :: [])
      (tailOK_cons_ne_dot _ _ (isDigit_ne_dot _ h7)) u14
    have u16 := drop_tail_step c6
      (c7 :: c8 :: c9 :: c10 :: c11 :: c12 :: c13 :: '.' :: 't' :: 'g' :: 'z' ::
        '.' :: 'e' :: 'n' :: 'c' :: [])
      (tailOK_cons_ne_dot _ _ (isDigit_ne_dot _ h6)) u15
    have u17 := drop_tail_step c5
      (c6 :: c7 :: c8 :: c9 :: c10 :: c11 :: c12 :: c13 :: '.' :: 't' :: 'g' :: 'z' ::
        '.' :: 'e' :: 'n' :: 'c' :: [])
      (tailOK_cons_ne_dot _ _ (isDigit_ne_dot _ h5)) u16
    have u18 := drop_tail_step c4
      (c5 :: c6 :: c7 :: c8 :: c9 :: c10 :: c11 :: c12 :: c13 :: '.' :: 't' :: 'g' :: 'z' ::
        '.' :: 'e' :: 'n' :: 'c' :: [])
      (tailOK_cons_ne_dot _ _ (isDigit_ne_dot _ h4)) u17
    have u19 := drop_tail_step c3
      (c4 :: c5 :: c6 :: c7 :: c8 :: c9 :: c10 :: c11 :: c12 :: c13 ::
        '.' :: 't' :: 'g' :: 'z' :: '.' :: 'e' :: 'n' :: 'c' :: [])
      (tailOK_cons_ne_dot _ _ (isDigit_ne_dot _ h3)) u18
    have u20 := drop_tail_step c2
      (c3 :: c4 :: c5 :: c6 :: c7 :: c8 :: c9 :: c10 :: c11 :: c12 :: c13 ::
        '.' :: 't' :: 'g' :: 'z' :: '.' :: 'e' :: 'n' :: 'c' :: [])
      (tailOK_cons_ne_dot _ _ (isDigit_ne_dot _ h2)) u19
    have u21 := drop_tail_step c1
      (c2 :: c3 :: c4 :: c5 :: c6 :: c7 :: c8 :: c9 :: c10 :: c11 :: c12 :: c13 ::
        '.' :: 't' :: 'g' :: 'z' :: '.' :: 'e' :: 'n' :: 'c' :: [])
      (tailOK_cons_ne_dot _ _ (isDigit_ne_dot _ h1)) u20
    have u22 := drop_tail_step c0
      (c1 :: c2 :: c3 :: c4 :: c5 :: c6 :: c7 :: c8 :: c9 :: c10 :: c11 :: c12 :: c13 ::
        '.' :: 't' :: 'g' :: 'z' :: '.' :: 'e' :: 'n' :: 'c' :: [])
      (tailOK_cons_ne_dot _ _ (isDigit_ne_dot _ h0)) u21
    simpa using u22

lemma cons_of_length_succ {α : Type} (n : Nat) (l : List α) (h : l.length = n + 1) :
    ∃ c t, l = c :: t ∧ t.length = n := by
  cases l with
  | nil => simp at h
  | cons c t => exact ⟨c, t, rfl, by simpa using h⟩

lemma exists14 (l : List Char) (h : l.length = 14) :
    ∃ a0 a1 a2 a3 a4 a5 a6 a7 a8 a9 a10 a11 a12 a13,
      l = [a0, a1, a2, a3, a4, a5, a6, a7, a8, a9, a10, a11, a12, a13] := by
  obtain ⟨a0, l, rfl, h⟩ := cons_of_length_succ 13 l (by omega)
  obtain ⟨a1, l, rfl, h⟩ := cons_of_length_succ 12 l (by omega)
  obtain ⟨a2, l, rfl, h⟩ := cons_of_length_succ 11 l (by omega)
  obtain ⟨a3, l, rfl, h⟩ := cons_of_length_succ 10 l (by omega)
  obtain ⟨a4, l, rfl, h⟩ := cons_of_length_succ 9 l (by omega)
  obtain ⟨a5, l, rfl, h⟩ := cons_of_length_succ 8 l (by omega)
  obtain ⟨a6, l, rfl, h⟩ := cons_of_length_succ 7 l (by omega)
  obtain ⟨a7, l, rfl, h⟩ := cons_of_length_succ 6 l (by omega)
  obtain ⟨a8, l, rfl, h⟩ := cons_of_length_succ 5 l (by omega)
  obtain ⟨a9, l, rfl, h⟩ := cons_of_length_succ 4 l (by omega)
  obtain ⟨a10, l, rfl, h⟩ := cons_of_length_succ 3 l (by omega)
  obtain ⟨a11, l, rfl, h⟩ := cons_of_length_succ 2 l (by omega)
  obtain ⟨a12, l, rfl, h⟩ := cons_of_length_succ 1 l (by omega)
  obtain ⟨a13, l, rfl, h⟩ := cons_of_length_succ 0 l (by omega)
  have hnil : l = [] := List.length_eq_zero.mp (by omega)
  subst hnil
  exact ⟨a0, a1, a2, a3, a4, a5, a6, a7, a8, a9, a10, a11, a12, a13, rfl⟩

lemma greedyFind_above (sep : Bool) (key : List Char) (m : Nat) (e : Bool)
    (hm : checkAt sep key m = some e)
    (habove : ∀ k, m < k → checkAt sep key k = none) :
    ∀ N, m ≤ N → greedyFind sep key N = some (m, e) := by
  intro N
  induction N with
  | zero =>
    intro hN
    exfalso
    have hm0 : m = 0 := Nat.le_zero.mp hN
    rw [hm0] at hm
    simp [checkAt] at hm
  | succ n ih =>
    intro hN
    by_cases hc : m = n + 1
    · subst hc
      simp [greedyFind, hm]
    · have hnone : checkAt sep key (n + 1) = none := habove _ (by omega)
      simp only [greedyFind, hnone]
      exact ih (by omega)

lemma checkAt_encode (name ts : List Char) (enc : Bool)
    (h1 : name ≠ []) (h2 : name.all (fun c => !(c == '\n')) = true)
    (h3 : ts.length = 14) (h4 : ts.all Char.isDigit = true) :
    checkAt true (encodeKey name ts enc) name.length = some enc := by
  have hm0 : name.length ≠ 0 := by
    simpa [List.length_eq_zero] using h1
  have htake : (encodeKey name ts enc).take name.length = name := by
    unfold encodeKey
    exact List.take_left _ _
  have hdrop : (encodeKey name ts enc).drop name.length =
      '.' :: (ts ++ '.' :: 't' :: 'g' :: 'z' :: (if enc then ['.', 'e', 'n', 'c'] else [])) := by
    unfold encodeKey
    exact List.drop_left _ _
  unfold checkAt
  rw [if_neg hm0, htake, h2, if_pos rfl, hdrop]
  show tailCore (ts ++ '.' :: 't' :: 'g' :: 'z' ::
    (if enc then ['.', 'e', 'n', 'c'] else [])) = some enc
  have h18 : (ts ++ '.' :: 't' :: 'g' :: 'z' ::
      (if enc then ['.', 'e', 'n', 'c'] else [])).drop 18 =
      (if enc then ['.', 'e', 'n', 'c'] else []) := by
    have he : (18 : Nat) = ts.length + 4 := by rw [h3]
    rw [he, List.drop_append]
    cases enc <;> rfl
  unfold tailCore
  rw [List.take_left' h3, List.drop_left' h3, h18]
  have hcond : (ts.all Char.isDigit = true) ∧
      (('.' :: 't' :: 'g' :: 'z' ::
        (if enc then ['.', 'e', 'n', 'c'] else []) : List Char).take 4 =
        ['.', 't', 'g', 'z']) := by
    refine ⟨h4, ?_⟩
    cases enc <;> rfl
  rw [if_pos hcond]
  cases enc <;> rfl

lemma regexDecode_encode (name ts : List Char) (enc : Bool)
    (h1 : name ≠ []) (h2 : name.all (fun c => !(c == '\n')) = true)
    (h3 : ts.length = 14) (h4 : ts.all Char.isDigit = true) :
    regexDecode true (encodeKey name ts enc) = some (name, ts, enc) := by
  have habove : ∀ k, name.length < k → checkAt true (encodeKey name ts enc) k = none := by
    obtain ⟨a0, a1, a2, a3, a4, a5, a6, a7, a8, a9, a10, a11, a12, a13, rfl⟩ := exists14 ts h3
    intro k hk
    have hk0 : k ≠ 0 := by omega
    unfold checkAt
    rw [if_neg hk0]
    split
    · obtain ⟨d, rfl⟩ : ∃ d, k = name.length + (d + 1) :=
        ⟨k - name.length - 1, by omega⟩
      unfold encodeKey
      rw [List.drop_append, List.drop_succ_cons]
      exact tailOK_suffix_none a0 a1 a2 a3 a4 a5 a6 a7 a8 a9 a10 a11 a12 a13 h4 enc d
    · rfl
  have hm := checkAt_encode name ts enc h1 h2 h3 h4
  have hN : name.length ≤ (encodeKey name ts enc).length := by
    unfold encodeKey
    rw [List.length_append]
    omega
  have hg := greedyFind_above true (encodeKey name ts enc) name.length enc hm habove _ hN
  unfold regexDecode
  rw [hg]
  show some ((encodeKey name ts enc).take name.length,
    ((encodeKey name ts enc).drop (name.length + 1)).take 14, enc) = some (name, ts, enc)
  have htake : (encodeKey name ts enc).take name.length = name := by
    unfold encodeKey
    exact List.take_left _ _
  have hdrop : ((encodeKey name ts enc).drop (name.length + 1)).take 14 = ts := by
    unfold encodeKey
    rw [List.drop_append]
    show (ts ++ '.' :: 't' :: 'g' :: 'z' ::
      (if enc then ['.', 'e', 'n', 'c'] else [])).take 14 = ts
    exact List.take_left' h3
  rw [htake, hdrop]

/-! ## Claims -/

/-- Claim C1: decoding a stored key tries the canonical grammar (name, dot,
14-digit timestamp, .tgz, optional .enc) first; on failure it falls back to
the legacy grammar without the dot before the timestamp; when neither
matches the key is kept as an opaque legacy name with backup_date 0 and
is_enc false.  The key project.20240115120000.tgz.enc decodes to name
project, epoch 1705320000 (2024-01-15T12:00:00Z), encrypted; the key
project20240115120000.tgz fails the canonical grammar and decodes through
the legacy grammar to the same name and timestamp, unencrypted. -/
theorem decode_canonical_then_legacy_then_opaque :
    (∀ key n ts e, regexDecode true key = some (n, ts, e) →
      decodeKey key = ⟨n, epochOfDate14 ts, e⟩) ∧
    (∀ key n ts e, regexDecode true key = none → regexDecode false key = some (n, ts, e) →
      decodeKey key = ⟨n, epochOfDate14 ts, e⟩) ∧
    (∀ key, regexDecode true key = none → regexDecode false key = none →
      decodeKey key = ⟨key, 0, false⟩) ∧
    decodeKey "project.20240115120000.tgz.enc".toList =
      ⟨"project".toList, 1705320000, true⟩ ∧
    regexDecode true "project20240115120000.tgz".toList = none ∧
    decodeKey "project20240115120000.tgz".toList =
      ⟨"project".toList, 1705320000, false⟩ := by
  refine ⟨?_, ?_, ?_, by decide, by decide, by decide⟩
  · intro key n ts e h
    simp [decodeKey, h]
  · intro key n ts e hc hl
    simp [decodeKey, hc, hl]
  · intro key hc hl
    simp [decodeKey, hc, hl]

/-- Witness for C1 at a key matching neither grammar. -/
theorem decode_canonical_then_legacy_then_opaque_witness :
    decodeKey "old-backup-name".toList = ⟨"old-backup-name".toList, 0, false⟩ :=
  decode_canonical_then_legacy_then_opaque.2.2.1 "old-backup-name".toList
    (by decide) (by decide)

/-- Claim C2: for every key matching the canonical grammar (nonempty name
without newline, 14-digit timestamp, optional encryption suffix), decoding
recovers exactly the components, and re-encoding them with the backup()
format name.timestamp.tgz plus .enc when encrypted reproduces the original
key byte for byte. -/
theorem canonical_key_roundtrip (name ts : List Char) (enc : Bool)
    (h1 : name ≠ []) (h2 : name.all (fun c => !(c == '\n')) = true)
    (h3 : ts.length = 14) (h4 : ts.all Char.isDigit = true) :
    regexDecode true (encodeKey name ts enc) = some (name, ts, enc) ∧
    (regexDecode true (encodeKey name ts enc)).map
      (fun g => encodeKey g.1 g.2.1 g.2.2) = some (encodeKey name ts enc) := by
  have h := regexDecode_encode name ts enc h1 h2 h3 h4
  refine ⟨h, ?_⟩
  rw [h]
  rfl

/-- Witness for C2 at the key project.20240115120000.tgz.enc. -/
theorem canonical_key_roundtrip_witness :
    regexDecode true (encodeKey "project".toList "20240115120000".toList true) =
      some ("project".toList, "20240115120000".toList, true) ∧
    (regexDecode true (encodeKey "project".toList "20240115120000".toList true)).map
      (fun g => encodeKey g.1 g.2.1 g.2.2) =
      some (encodeKey "project".toList "20240115120000".toList true) :=
  canonical_key_roundtrip "project".toList "20240115120000".toList true
    (by decide) (by decide) (by decide) (by decide)

/-- Claim C4: when no catalog record matches the requested name, restore()
and delete() report the failure with a falsy result, contact the storage
backend for no download and no deletion, and leave every record (in
particular every deleted flag) unchanged. -/
theorem restore_delete_not_found (cat : List BackupRecord) (dest : Nat)
    (filename : List Char) (jc : Bool) (dl : Option Nat) (now : Nat) (s : Bool)
    (h : catalogMatchFilename cat dest filename = none) :
    restoreOp cat dest filename jc dl = (RestoreReturn.noResult, cat, []) ∧
    deleteOp cat dest filename now s = (none, cat, []) := by
  by_cases hf : filename = [] <;>
    simp [restoreOp, deleteOp, hf, h]

/-- Witness for C4 on an empty catalog. -/
theorem restore_delete_not_found_witness :
    restoreOp [] 0 "doc".toList false none = (RestoreReturn.noResult, [], []) ∧
    deleteOp [] 0 "doc".toList 7 true = (none, [], []) :=
  restore_delete_not_found [] 0 "doc".toList false none 7 true (by decide)

/-- Claim C5: rotate_backups with a missing retention configuration fails
fatally (the raised exception is modelled as Except.error) before any
deletion is attempted: no backend call is made and the catalog, hence every
deleted flag, is untouched. -/
theorem rotate_missing_config (cat : List BackupRecord) (dest : Nat) (name : List Char)
    (toDelete : List Nat) (now : Nat) (s : Bool) :
    rotateBackups none cat dest name toDelete now s =
      (Except.error
        "You must run bakthat configure_backups_rotation or provide rotation configuration.",
        cat, []) := rfl

/-- Claim C8: when restore() finds a matching record, a job_check call
returns the raw backend payload exactly as the download produced it, with
no decryption and no extraction step, and a plain call whose download
yields a stream returns the boolean True after extracting it. -/
theorem restore_found_behaviour (cat : List BackupRecord) (dest : Nat)
    (filename : List Char) (b : BackupRecord)
    (hne : filename ≠ []) (h : catalogMatchFilename cat dest filename = some b) :
    (∀ dl, restoreOp cat dest filename true dl =
      (RestoreReturn.jobPayload dl, cat, [Event.backendDownload b.stored_filename])) ∧
    (∀ p, restoreOp cat dest filename false (some p) =
      (RestoreReturn.success, cat, [Event.backendDownload b.stored_filename])) := by
  constructor
  · intro dl
    simp [restoreOp, hne, h]
  · intro p
    simp [restoreOp, hne, h]

/-- Witness for C8 on a one-record catalog. -/
theorem restore_found_behaviour_witness :
    restoreOp [⟨0, "doc".toList, "doc.20240101000000.tgz".toList, 100, 100, 0,
        false, false, []⟩] 0 "doc".toList true (some 5) =
      (RestoreReturn.jobPayload (some 5),
        [⟨0, "doc".toList, "doc.20240101000000.tgz".toList, 100, 100, 0,
          false, false, []⟩],
        [Event.backendDownload "doc.20240101000000.tgz".toList]) :=
  (restore_found_behaviour
    [⟨0, "doc".toList, "doc.20240101000000.tgz".toList, 100, 100, 0, false, false, []⟩]
    0 "doc".toList
    ⟨0, "doc".toList, "doc.20240101000000.tgz".toList, 100, 100, 0, false, false, []⟩
    (by decide) (by decide)).1 (some 5)

/-- Claim C9: a backup() call whose password prompt gets two different
confirmation entries returns None early: nothing is uploaded to the storage
backend and no catalog record is created. -/
theorem backup_password_mismatch (a : BackupArgs) (cat : List BackupRecord) (s : Bool)
    (h1 : a.kwPassword = none) (h2 : a.promptEnabled = true)
    (h3 : a.promptPassword ≠ []) (h4 : a.promptPassword ≠ a.promptConfirm) :
    backupOp a cat s = (none, cat, []) := by
  have hr : resolvePassword a = none := by
    simp [resolvePassword, h1, h2, h3, h4]
  simp [backupOp, hr]

/-- Witness for C9 with mismatching prompt answers. -/
theorem backup_password_mismatch_witness :
    backupOp ⟨"doc".toList, none, none, true, "pw1".toList, "pw2".toList, [], 0,
      1705320000⟩ [] true = (none, [], []) :=
  backup_password_mismatch
    ⟨"doc".toList, none, none, true, "pw1".toList, "pw2".toList, [], 0, 1705320000⟩
    [] true (by decide) (by decide) (by decide) (by decide)

/-! ## Helper lemmas for the catalog mutations -/

lemma setDeleted_length (cat : List BackupRecord) (i now : Nat) :
    (setDeleted cat i now).length = cat.length := by
  simp [setDeleted]

lemma setDeleted_mem (cat : List BackupRecord) (i now : Nat) :
    ∀ r' ∈ setDeleted cat i now, ∃ r ∈ cat, r' = r ∨ r' = markDeleted r now := by
  intro r' hr'
  simp only [setDeleted, List.mem_map] at hr'
  obtain ⟨r, hr, hmap⟩ := hr'
  refine ⟨r, hr, ?_⟩
  by_cases h : r.id = i
  · right
    rw [← hmap]
    simp [h]
  · left
    rw [← hmap]
    simp [h]

lemma markDeleted_idem (r : BackupRecord) (now : Nat) :
    markDeleted (markDeleted r now) now = markDeleted r now := rfl

lemma rotateLoop_keys_eq_trace (dest : Nat) (name : List Char) (now : Nat) :
    ∀ (dates : List Nat) (cat : List BackupRecord),
      (rotateLoop cat dest name now dates).2.1.filterMap
        (fun e => match e with | Event.backendDelete k => some k | _ => none) =
      (rotateLoop cat dest name now dates).2.2 := by
  intro dates
  induction dates with
  | nil => intro cat; rfl
  | cons d ds ih =>
    intro cat
    cases hs : searchExact cat dest name d with
    | none => simp only [rotateLoop, hs]; exact ih cat
    | some b =>
      simp only [rotateLoop, hs, List.filterMap_cons]
      exact congrArg _ (ih (setDeleted cat b.id now))

lemma rotateLoop_shape (dest : Nat) (name : List Char) (now : Nat) :
    ∀ (dates : List Nat) (cat : List BackupRecord),
      (rotateLoop cat dest name now dates).1.length = cat.length ∧
      ∀ r' ∈ (rotateLoop cat dest name now dates).1,
        ∃ r ∈ cat, r' = r ∨ r' = markDeleted r now := by
  intro dates
  induction dates with
  | nil =>
    intro cat
    exact ⟨rfl, fun r' hr' => ⟨r', hr', Or.inl rfl⟩⟩
  | cons d ds ih =>
    intro cat
    cases hs : searchExact cat dest name d with
    | none =>
      simp only [rotateLoop, hs]
      exact ih cat
    | some b =>
      obtain ⟨ihl, ihm⟩ := ih (setDeleted cat b.id now)
      constructor
      · simp only [rotateLoop, hs]
        rw [ihl, setDeleted_length]
      · intro r' hr'
        simp only [rotateLoop, hs] at hr'
        obtain ⟨r1, hr1, hcase⟩ := ihm r' hr'
        obtain ⟨r, hr, hcase'⟩ := setDeleted_mem cat b.id now r1 hr1
        refine ⟨r, hr, ?_⟩
        rcases hcase with rfl | rfl <;> rcases hcase' with rfl | rfl
        · exact Or.inl rfl
        · exact Or.inr rfl
        · exact Or.inr rfl
        · exact Or.inr (markDeleted_idem r now)

lemma rotateLoop_skip (dest : Nat) (name : List Char) (now : Nat) :
    ∀ (dates : List Nat) (cat : List BackupRecord),
      (∀ d ∈ dates, searchExact cat dest name d = none) →
      rotateLoop cat dest name now dates = (cat, [], []) := by
  intro dates
  induction dates with
  | nil => intro cat _; rfl
  | cons d ds ih =>
    intro cat h
    have hd := h d (by simp)
    simp only [rotateLoop, hd]
    exact ih cat (fun x hx => h x (by simp [hx]))

/-- Sample records for the rotation scenario: two backups of doc at epoch
dates 100 and 200. -/
def recA : BackupRecord :=
  ⟨0, "doc".toList, "doc.20240101000000.tgz".toList, 100, 100, 0, false, false, []⟩

def recB : BackupRecord :=
  ⟨1, "doc".toList, "doc.20240102000000.tgz".toList, 200, 200, 0, false, false, []⟩

/-! ## Remaining claims -/

/-- Claim C3 counterexample: two backup() calls agreeing on the record
triple (filename, backup_date, is_encrypted) can produce different stored
keys, because custom_filename overrides the filename field only, while the
stored key is built from the archive name of the path.  Backing up path bar
with custom_filename foo and backing up path foo produce records that agree
on the triple but carry stored keys bar.....tgz and foo.....tgz. -/
theorem stored_key_not_determined_by_triple :
    ((backupOp ⟨"bar".toList, some "foo".toList, some [], true, [], [], [], 0,
        1700000000⟩ [] true).1.map (fun r => (r.filename, r.backup_date, r.is_enc)) =
      (backupOp ⟨"foo".toList, none, some [], true, [], [], [], 0,
        1700000000⟩ [] true).1.map (fun r => (r.filename, r.backup_date, r.is_enc))) ∧
    (backupOp ⟨"bar".toList, some "foo".toList, some [], true, [], [], [], 0,
        1700000000⟩ [] true).1.map (fun r => r.stored_filename) ≠
      (backupOp ⟨"foo".toList, none, some [], true, [], [], [], 0,
        1700000000⟩ [] true).1.map (fun r => r.stored_filename) := by
  decide

/-- Claim C3 amended: for records created by backup() without a
custom_filename override, the stored key is fully determined by
(filename, backup_date, is_encrypted). -/
theorem stored_key_determined_without_custom (a1 a2 : BackupArgs)
    (cat1 cat2 : List BackupRecord) (s1 s2 : Bool) (r1 r2 : BackupRecord)
    (hc1 : a1.customFilename = none) (hc2 : a2.customFilename = none)
    (hr1 : (backupOp a1 cat1 s1).1 = some r1) (hr2 : (backupOp a2 cat2 s2).1 = some r2)
    (hf : r1.filename = r2.filename) (hd : r1.backup_date = r2.backup_date)
    (he : r1.is_enc = r2.is_enc) :
    r1.stored_filename = r2.stored_filename := by
  cases hp1 : resolvePassword a1 with
  | none => simp [backupOp, hp1] at hr1
  | some eff1 =>
    cases hp2 : resolvePassword a2 with
    | none => simp [backupOp, hp2] at hr2
    | some eff2 =>
      simp only [backupOp, hp1, Option.some.injEq] at hr1
      simp only [backupOp, hp2, Option.some.injEq] at hr2
      subst hr1
      subst hr2
      simp only [hc1, hc2, Option.getD_none] at hf
      dsimp only at hf hd he ⊢
      rw [hf, hd, he]

/-- Witness for the amended C3 at a pair of equal unencrypted backups. -/
theorem stored_key_determined_without_custom_witness :
    (⟨0, "foo".toList, "foo.20231114221320.tgz".toList, 1700000000, 1700000000, 0,
      false, false, []⟩ : BackupRecord).stored_filename =
    (⟨0, "foo".toList, "foo.20231114221320.tgz".toList, 1700000000, 1700000000, 0,
      false, false, []⟩ : BackupRecord).stored_filename :=
  stored_key_determined_without_custom
    ⟨"foo".toList, none, some [], true, [], [], [], 0, 1700000000⟩
    ⟨"foo".toList, none, some [], true, [], [], [], 0, 1700000000⟩
    [] [] true true _ _ rfl rfl (by decide) (by decide) rfl rfl rfl

/-- Claim C6: a rotate_backups run with a valid configuration resolves each
date of the to-delete set through an exact-date catalog search, silently
skips dates with no matching record, soft-deletes each resolved record and
deletes its stored key from the backend, and returns exactly the sequence
of stored keys it deleted.  The last conjunct is the concrete scenario: of
the dates 200 and 300, only 200 resolves (to the record recB), which is
soft-deleted, and 300 is skipped. -/
theorem rotate_valid_config (rc : RotationConf) (cat : List BackupRecord) (dest : Nat)
    (name : List Char) (dates : List Nat) (now : Nat) (s : Bool) :
    (∀ keys, (rotateBackups (some rc) cat dest name dates now s).1 = Except.ok keys →
      (rotateBackups (some rc) cat dest name dates now s).2.2.filterMap
        (fun e => match e with | Event.backendDelete k => some k | _ => none) = keys) ∧
    ((rotateBackups (some rc) cat dest name dates now s).2.1.length = cat.length ∧
      ∀ r' ∈ (rotateBackups (some rc) cat dest name dates now s).2.1,
        ∃ r ∈ cat, r' = r ∨ r' = markDeleted r now) ∧
    ((∀ d ∈ dates, searchExact cat dest name d = none) →
      rotateBackups (some rc) cat dest name dates now s =
        (Except.ok [], cat, [Event.syncAuto s])) ∧
    rotateBackups (some rc) [recA, recB] 0 "doc".toList [200, 300] 500 s =
      (Except.ok ["doc.20240102000000.tgz".toList],
        [recA, markDeleted recB 500],
        [Event.backendDelete "doc.20240102000000.tgz".toList, Event.catalogSetDeleted 1,
          Event.syncAuto s]) := by
  refine ⟨?_, ?_, ?_, ?_⟩
  · intro keys hkeys
    simp only [rotateBackups] at hkeys ⊢
    have := rotateLoop_keys_eq_trace dest name now dates cat
    rw [List.filterMap_append]
    simp only [List.filterMap_cons, List.filterMap_nil, List.append_nil]
    rw [this]
    exact Except.ok.inj hkeys
  · constructor
    · simp only [rotateBackups]
      exact (rotateLoop_shape dest name now dates cat).1
    · intro r' hr'
      simp only [rotateBackups] at hr'
      exact (rotateLoop_shape dest name now dates cat).2 r' hr'
  · intro h
    simp only [rotateBackups, rotateLoop_skip dest name now dates cat h]
    rfl
  · have hloop : rotateLoop [recA, recB] 0 "doc".toList 500 [200, 300] =
        ([recA, markDeleted recB 500],
          [Event.backendDelete "doc.20240102000000.tgz".toList, Event.catalogSetDeleted 1],
          ["doc.20240102000000.tgz".toList]) := by decide
    simp only [rotateBackups, hloop]
    rfl

/-- Witness for C6: an empty to-delete set deletes nothing. -/
theorem rotate_valid_config_witness :
    (rotateBackups (some ⟨7, 4, 0, 5⟩) [] 0 "doc".toList [] 0 true).2.2.filterMap
      (fun e => match e with | Event.backendDelete k => some k | _ => none) = [] :=
  (rotate_valid_config ⟨7, 4, 0, 5⟩ [] 0 "doc".toList [] 0 true).1 [] rfl

/-- Claim C7: every mutating catalog operation (backup, delete,
delete_older_than, rotate_backups) ends its side-effect trace with the
best-effort sync, and the sync outcome has no influence on the returned
value or the resulting catalog: a failing sync never undoes the mutation. -/
theorem mutating_ops_sync_best_effort (cat : List BackupRecord) (s : Bool) :
    (∀ a, resolvePassword a ≠ none →
      (backupOp a cat s).2.2.getLast? = some (Event.syncAuto s) ∧
      (backupOp a cat true).1 = (backupOp a cat false).1 ∧
      (backupOp a cat true).2.1 = (backupOp a cat false).2.1) ∧
    (∀ dest f now b, f ≠ [] → catalogMatchFilename cat dest f = some b →
      (deleteOp cat dest f now s).2.2.getLast? = some (Event.syncAuto s) ∧
      (deleteOp cat dest f now true).1 = (deleteOp cat dest f now false).1 ∧
      (deleteOp cat dest f now true).2.1 = (deleteOp cat dest f now false).2.1) ∧
    (∀ dest f cutoff now,
      (deleteOlderThanOp cat dest f cutoff now s).2.2.getLast? =
        some (Event.syncAuto s) ∧
      (deleteOlderThanOp cat dest f cutoff now true).1 =
        (deleteOlderThanOp cat dest f cutoff now false).1 ∧
      (deleteOlderThanOp cat dest f cutoff now true).2.1 =
        (deleteOlderThanOp cat dest f cutoff now false).2.1) ∧
    (∀ rc dest f dates now,
      (rotateBackups (some rc) cat dest f dates now s).2.2.getLast? =
        some (Event.syncAuto s) ∧
      (rotateBackups (some rc) cat dest f dates now true).1 =
        (rotateBackups (some rc) cat dest f dates now false).1 ∧
      (rotateBackups (some rc) cat dest f dates now true).2.1 =
        (rotateBackups (some rc) cat dest f dates now false).2.1) := by
  refine ⟨?_, ?_, ?_, ?_⟩
  · intro a ha
    cases hp : resolvePassword a with
    | none => exact absurd hp ha
    | some eff => exact ⟨by simp [backupOp, hp], by simp [backupOp, hp], by
        simp [backupOp, hp]⟩
  · intro dest f now b hf hb
    exact ⟨by simp [deleteOp, hf, hb], by simp [deleteOp, hf, hb], by
      simp [deleteOp, hf, hb]⟩
  · intro dest f cutoff now
    exact ⟨List.getLast?_concat _, rfl, rfl⟩
  · intro rc dest f dates now
    exact ⟨List.getLast?_concat _, rfl, rfl⟩

/-- Witness for C7 at a concrete backup() call. -/
theorem mutating_ops_sync_best_effort_witness :
    (backupOp ⟨"doc".toList, none, some [], true, [], [], [], 0, 1705320000⟩ []
        true).2.2.getLast? = some (Event.syncAuto true) ∧
    (backupOp ⟨"doc".toList, none, some [], true, [], [], [], 0, 1705320000⟩ [] true).1 =
      (backupOp ⟨"doc".toList, none, some [], true, [], [], [], 0, 1705320000⟩ [] false).1 ∧
    (backupOp ⟨"doc".toList, none, some [], true, [], [], [], 0, 1705320000⟩ [] true).2.1 =
      (backupOp ⟨"doc".toList, none, some [], true, [], [], [], 0, 1705320000⟩ []
        false).2.1 :=
  (mutating_ops_sync_best_effort [] true).1
    ⟨"doc".toList, none, some [], true, [], [], [], 0, 1705320000⟩ (by decide)

/-- Claim C10: _match_filename with a blank filename raises before the
storage backend is contacted, and so does the public match_filename built
on it; with a non-empty filename the returned keys are exactly the listed
keys starting with the filename, sorted in descending order. -/
theorem match_filename_blank_or_listing (f : List Char) (ls : List (List Char)) :
    (f = [] →
      matchFilenameKeysOp f ls = (Except.error "Filename cannot be blank", []) ∧
      matchFilenameOp f ls = (Except.error "Filename cannot be blank", [])) ∧
    (f ≠ [] →
      matchFilenameKeysOp f ls =
        (Except.ok (sortKeysDesc (ls.filter (fun k => f.isPrefixOf k))),
          [Event.backendLs]) ∧
      (sortKeysDesc (ls.filter (fun k => f.isPrefixOf k))).Perm
        (ls.filter (fun k => f.isPrefixOf k)) ∧
      List.Sorted keyGeRel (sortKeysDesc (ls.filter (fun k => f.isPrefixOf k)))) := by
  constructor
  · intro hf
    subst hf
    exact ⟨rfl, rfl⟩
  · intro hf
    exact ⟨by simp [matchFilenameKeysOp, hf], List.perm_insertionSort _ _,
      List.sorted_insertionSort _ _⟩

/-- Witness for C10 at a two-key listing. -/
theorem match_filename_blank_or_listing_witness :
    matchFilenameKeysOp "doc".toList
        ["doc.20240101000000.tgz".toList, "other.tgz".toList] =
      (Except.ok (sortKeysDesc
          (["doc.20240101000000.tgz".toList, "other.tgz".toList].filter
            (fun k => "doc".toList.isPrefixOf k))), [Event.backendLs]) ∧
    (sortKeysDesc (["doc.20240101000000.tgz".toList, "other.tgz".toList].filter
        (fun k => "doc".toList.isPrefixOf k))).Perm
      (["doc.20240101000000.tgz".toList, "other.tgz".toList].filter
        (fun k => "doc".toList.isPrefixOf k)) ∧
    List.Sorted keyGeRel (sortKeysDesc
      (["doc.20240101000000.tgz".toList, "other.tgz".toList].filter
        (fun k => "doc".toList.isPrefixOf k))) :=
  (match_filename_blank_or_listing "doc".toList
    ["doc.20240101000000.tgz".toList, "other.tgz".toList]).2 (by decide)

end Bakthat
